import Mathlib

set_option autoImplicit false

/-!
Formal model of the financial-agent repository's persistence core:
the ledger store (`app/store.py`), the tool layer around it
(`app/tools/financial_tools.py`), the session scope
(`PersistentSQLiteStore.get_session`) and the memory tools
(`app/tools/memory.py`).

Machine floats of the source are modelled as exact rationals (`Rat`);
Python `datetime.date` values as proleptic Gregorian calendar triples.
-/

/-- Proleptic Gregorian calendar date, modelling Python `datetime.date`
(year, month, day). -/
structure PyDate where
  year : Nat
  month : Nat
  day : Nat
deriving DecidableEq

/-- Python `calendar.isleap` / `datetime._is_leap`. -/
def isLeap (y : Nat) : Bool :=
  y % 4 == 0 && (y % 100 != 0 || y % 400 == 0)

/-- Python `datetime._days_in_month`. -/
def daysInMonth (y m : Nat) : Nat :=
  if m == 2 then (if isLeap y then 29 else 28)
  else if m == 4 || m == 6 || m == 9 || m == 11 then 30
  else 31

/-- Python `datetime._days_before_month`: days in year `y` preceding month `m`. -/
def daysBeforeMonth (y m : Nat) : Nat :=
  ((List.range (m - 1)).map (fun i => daysInMonth y (i + 1))).sum

/-- Python `datetime._days_before_year`: days before January 1 of year `y`. -/
def daysBeforeYear (y : Nat) : Nat :=
  let p := y - 1
  365 * p + p / 4 - p / 100 + p / 400

/-- Python `datetime.date.toordinal`. -/
def PyDate.toOrdinal (d : PyDate) : Nat :=
  daysBeforeYear d.year + daysBeforeMonth d.year d.month + d.day

/-- Python `datetime._ord2ymd` (`date.fromordinal`). -/
def PyDate.fromOrdinal (n : Nat) : PyDate :=
  let n0 := n - 1
  let n400 := n0 / 146097
  let r1 := n0 % 146097
  let n100 := r1 / 36524
  let r2 := r1 % 36524
  let n4 := r2 / 1461
  let r3 := r2 % 1461
  let n1 := r3 / 365
  let r4 := r3 % 365
  let year := n400 * 400 + n100 * 100 + n4 * 4 + n1 + 1
  if n1 == 4 || n100 == 4 then
    PyDate.mk (year - 1) 12 31
  else
    let leap := n1 == 3 && (n4 != 24 || n100 == 3)
    let month := (r4 + 50) / 32
    let preceding := daysBeforeMonth 1 month + (if month > 2 && leap then 1 else 0)
    let month2 := if preceding > r4 then month - 1 else month
    let preceding2 :=
      if preceding > r4 then
        preceding - (daysInMonth 1 month2 + (if month2 == 2 && leap then 1 else 0))
      else preceding
    PyDate.mk year month2 (r4 - preceding2 + 1)

/-- Python `date - timedelta(days=k)`. -/
def PyDate.subDays (d : PyDate) (k : Nat) : PyDate :=
  PyDate.fromOrdinal (d.toOrdinal - k)

/-- Chronological order on dates (Python `date.__le__`, and the order SQLite
uses on the `Date` column): lexicographic on (year, month, day). -/
def dateLe (a b : PyDate) : Bool :=
  decide (a.year < b.year ∨ (a.year = b.year ∧
    (a.month < b.month ∨ (a.month = b.month ∧ a.day ≤ b.day))))

theorem dateLe_refl (d : PyDate) : dateLe d d = true := by
  simp [dateLe]

/-- Row of the `transactions` table (`app/store.py`, class `Transaction`).
The audit timestamps (`created_at`/`updated_at`), which no claim touches,
are omitted. -/
structure Transaction where
  id : Nat
  user_id : String
  amount : Rat
  type : String
  category : String
  description : Option String
  date : PyDate
  thread_id : Option String
deriving DecidableEq

/-- State of the transactions table: its rows (in rowid order) and the next
autoincrement id. -/
structure Ledger where
  rows : List Transaction
  nextId : Nat
deriving DecidableEq

/-- `PersistentSQLiteStore.add_transaction`: stores `abs(amount)`
("Sempre positivo"), defaults the date to `date.today()` (passed here as
the explicit `today` argument), and returns the fresh id. -/
def addTransaction (st : Ledger) (user_id : String) (amount : Rat)
    (type : String) (category : String) (description : Option String)
    (transaction_date : Option PyDate) (thread_id : Option String)
    (today : PyDate) : Nat × Ledger :=
  let t : Transaction :=
    Transaction.mk st.nextId user_id |amount| type category description
      (transaction_date.getD today) thread_id
  (st.nextId, Ledger.mk (st.rows ++ [t]) (st.nextId + 1))

/-- The five periods accepted by `get_balance`. -/
inductive Period where
  | today
  | week
  | month
  | year
  | all
deriving DecidableEq

/-- The start-date cutoff computed inside `get_balance` (and, for the first
four periods, `list_transactions` / `get_category_summary`). -/
def startDate (today : PyDate) : Period → PyDate
  | Period.today => today
  | Period.week => today.subDays 7
  | Period.month => PyDate.mk today.year today.month 1
  | Period.year => PyDate.mk today.year 1 1
  | Period.all => PyDate.mk 2000 1 1

/-- The dictionary returned by `get_balance`. -/
structure BalanceResult where
  income : Rat
  expenses : Rat
  balance : Rat
  period : Period
  start_date : PyDate
deriving DecidableEq

/-- `func.sum` over the `amount` column of the selected rows (SQL `SUM`,
with the `scalar() or 0.0` fallback folded in: the empty sum is 0). -/
def sumAmounts (l : List Transaction) : Rat :=
  (l.map (fun t => t.amount)).sum

/-- `PersistentSQLiteStore.get_balance`: two independent filtered sums and
their signed difference. -/
def getBalance (st : Ledger) (user_id : String) (period : Period)
    (today : PyDate) : BalanceResult :=
  let s := startDate today period
  let income := sumAmounts (st.rows.filter
    (fun t => decide (t.user_id = user_id ∧ t.type = "income" ∧ dateLe s t.date = true)))
  let expenses := sumAmounts (st.rows.filter
    (fun t => decide (t.user_id = user_id ∧ t.type = "expense" ∧ dateLe s t.date = true)))
  BalanceResult.mk income expenses (income - expenses) period s

/-- `PersistentSQLiteStore.delete_transaction` body: `.filter(id, user_id).first()`
then delete. The first row (in rowid order) matching both id and owner is
removed; absence yields `false`. -/
def deleteFirst (user_id : String) (tid : Nat) :
    List Transaction → Bool × List Transaction
  | [] => (false, [])
  | t :: ts =>
    if t.id == tid && t.user_id == user_id then (true, ts)
    else
      let r := deleteFirst user_id tid ts
      (r.1, t :: r.2)

/-- `PersistentSQLiteStore.delete_transaction`. -/
def deleteTransaction (st : Ledger) (user_id : String) (tid : Nat) :
    Bool × Ledger :=
  let r := deleteFirst user_id tid st.rows
  (r.1, Ledger.mk r.2 st.nextId)

/-- The keyword-argument dictionary passed to `update_transaction`. The tool
layer only ever supplies these five attributes; `none` means the key is
absent (the source skips keys whose value `is None`, which coincides). -/
structure UpdateFields where
  amount : Option Rat
  type : Option String
  category : Option String
  description : Option String
  date : Option PyDate
deriving DecidableEq

/-- The `setattr` loop of `update_transaction`: present fields overwrite,
absent ones are kept. Note: no `abs` is applied here. -/
def applyFields (t : Transaction) (f : UpdateFields) : Transaction :=
  Transaction.mk t.id t.user_id
    (f.amount.getD t.amount)
    (f.type.getD t.type)
    (f.category.getD t.category)
    (match f.description with
      | some d => some d
      | none => t.description)
    (f.date.getD t.date)
    t.thread_id

/-- `update_transaction` body: first matching row is overwritten in place. -/
def updateFirst (user_id : String) (tid : Nat) (f : UpdateFields) :
    List Transaction → Bool × List Transaction
  | [] => (false, [])
  | t :: ts =>
    if t.id == tid && t.user_id == user_id then (true, applyFields t f :: ts)
    else
      let r := updateFirst user_id tid f ts
      (r.1, t :: r.2)

/-- `PersistentSQLiteStore.update_transaction`. -/
def updateTransaction (st : Ledger) (user_id : String) (tid : Nat)
    (f : UpdateFields) : Bool × Ledger :=
  let r := updateFirst user_id tid f st.rows
  (r.1, Ledger.mk r.2 st.nextId)

/-- `PersistentSQLiteStore.clear_user_transactions`: bulk `DELETE WHERE
user_id = u`, returning the number of rows removed. -/
def clearUserTransactions (st : Ledger) (user_id : String) : Nat × Ledger :=
  (st.rows.countP (fun t => t.user_id == user_id),
   Ledger.mk (st.rows.filter (fun t => !(t.user_id == user_id))) st.nextId)

/-- ASCII lower-casing of one character. -/
def lowerChar (c : Char) : Char :=
  if c.toNat ≥ 65 && c.toNat ≤ 90 then Char.ofNat (c.toNat + 32) else c

/-- ASCII lower-casing, as `str.lower` restricted to the ASCII range (every
upper-case letter occurring in the inputs at issue is ASCII; the seeded
keywords are already lower-case). -/
def lowerStr (s : String) : String :=
  String.mk (s.toList.map lowerChar)

/-- Does `needle` occur at the head of the second list? -/
def matchesAt : List Char → List Char → Bool
  | [], _ => true
  | _ :: _, [] => false
  | a :: as, b :: bs => a == b && matchesAt as bs

/-- Does `needle` occur contiguously anywhere in the list? (Python
`needle in haystack` on strings.) -/
def occursIn (needle : List Char) : List Char → Bool
  | [] => needle.isEmpty
  | b :: bs => matchesAt needle (b :: bs) || occursIn needle bs

/-- Python `needle in haystack` for strings. -/
def containsSub (haystack needle : String) : Bool :=
  occursIn needle.toList haystack.toList

/-- `PersistentSQLiteStore.CATEGORY_KEYWORDS` in source (insertion) order:
keyword, category, kind. `_init_category_mappings` seeds the
`category_mappings` table in this order, and `infer_category` scans it in
stored order. -/
def CATEGORY_KEYWORDS : List (String × String × String) :=
  [("almoço", "Alimentação", "expense"),
   ("jantar", "Alimentação", "expense"),
   ("café", "Alimentação", "expense"),
   ("lanche", "Alimentação", "expense"),
   ("restaurante", "Alimentação", "expense"),
   ("mercado", "Alimentação", "expense"),
   ("supermercado", "Alimentação", "expense"),
   ("ifood", "Alimentação", "expense"),
   ("delivery", "Alimentação", "expense"),
   ("uber", "Transporte", "expense"),
   ("99", "Transporte", "expense"),
   ("taxi", "Transporte", "expense"),
   ("ônibus", "Transporte", "expense"),
   ("metrô", "Transporte", "expense"),
   ("gasolina", "Transporte", "expense"),
   ("combustível", "Transporte", "expense"),
   ("estacionamento", "Transporte", "expense"),
   ("aluguel", "Moradia", "expense"),
   ("condomínio", "Moradia", "expense"),
   ("luz", "Moradia", "expense"),
   ("água", "Moradia", "expense"),
   ("internet", "Moradia", "expense"),
   ("gás", "Moradia", "expense"),
   ("netflix", "Assinaturas", "expense"),
   ("spotify", "Assinaturas", "expense"),
   ("amazon", "Assinaturas", "expense"),
   ("disney", "Assinaturas", "expense"),
   ("salário", "Salário", "income"),
   ("freelance", "Freelance", "income"),
   ("freela", "Freelance", "income"),
   ("venda", "Vendas", "income"),
   ("dividendos", "Investimentos", "income"),
   ("rendimento", "Investimentos", "income")]

/-- The scan loop of `infer_category`: first keyword (in stored order) that
occurs in the lowered description wins. -/
def findKeyword (dl : String) :
    List (String × String × String) → Option (String × String)
  | [] => none
  | e :: es =>
    if containsSub dl e.1 then some (e.2.1, e.2.2) else findKeyword dl es

/-- `PersistentSQLiteStore.infer_category`. -/
def inferCategory (description : String) : String × String :=
  if description == "" then ("Outros", "expense")
  else
    match findKeyword (lowerStr description) CATEGORY_KEYWORDS with
    | some ck => ck
    | none => ("Outros", "expense")

/-- Python truthiness of an optional string argument (`None` and `""` are
falsy). -/
def truthy (o : Option String) : Bool :=
  match o with
  | some s => !(s == "")
  | none => false

/-- Split a character list on a separator (Python `str.split(sep)` shape:
empty fields are kept). -/
def splitOnChar (sep : Char) : List Char → List (List Char)
  | [] => [[]]
  | c :: cs =>
    if c == sep then [] :: splitOnChar sep cs
    else
      match splitOnChar sep cs with
      | [] => [[c]]
      | w :: ws => (c :: w) :: ws

/-- Is the field made of decimal digits only (and non-empty)? -/
def allDigitsL (l : List Char) : Bool :=
  !(l.isEmpty) && l.all (fun c => c.isDigit)

/-- Decimal value of a digit field. -/
def digitsVal (l : List Char) : Nat :=
  l.foldl (fun acc c => acc * 10 + (c.toNat - 48)) 0

/-- `datetime.strptime(s, "%Y-%m-%d").date()` as a total function:
`%Y` is exactly four digits, `%m` and `%d` one or two, separated by
literal hyphens, and the constructed date must be valid (month 1-12, day
within the month, year 1-9999); otherwise `none` (the `ValueError` path). -/
def parseYMD (s : String) : Option PyDate :=
  match splitOnChar '-' s.toList with
  | [ys, ms, ds] =>
    if allDigitsL ys && allDigitsL ms && allDigitsL ds
        && ys.length == 4 && ms.length ≤ 2 && ds.length ≤ 2 then
      let y := digitsVal ys
      let m := digitsVal ms
      let d := digitsVal ds
      if 1 ≤ y && y ≤ 9999 && 1 ≤ m && m ≤ 12 && 1 ≤ d && d ≤ daysInMonth y m then
        some (PyDate.mk y m d)
      else none
    else none
  | _ => none

/-- `datetime.strptime(s, "%d/%m/%Y").date()` as a total function. -/
def parseDMY (s : String) : Option PyDate :=
  match splitOnChar '/' s.toList with
  | [ds, ms, ys] =>
    if allDigitsL ys && allDigitsL ms && allDigitsL ds
        && ys.length == 4 && ms.length ≤ 2 && ds.length ≤ 2 then
      let y := digitsVal ys
      let m := digitsVal ms
      let d := digitsVal ds
      if 1 ≤ y && y ≤ 9999 && 1 ≤ m && m ≤ 12 && 1 ≤ d && d ≤ daysInMonth y m then
        some (PyDate.mk y m d)
      else none
    else none
  | _ => none

/-- The nested `try strptime ... except ValueError: try strptime ... except
ValueError: pass` chain of the add/update tools: first format that parses
wins; when neither does the result is silently `none` (no error is raised). -/
def parseDateStr (s : String) : Option PyDate :=
  match parseYMD s with
  | some d => some d
  | none => parseDMY s

/-- Replies of the financial tools, abstracting the Portuguese reply
strings by the branch that produced them. -/
inductive ToolReply where
  | added (id : Nat)
  | updated (id : Nat)
  | notFound (id : Nat)
  | noChanges
  | cancelled
  | cleared (count : Nat)
deriving DecidableEq

/-- Python `category or "Outros"`. -/
def orElseStr (o : Option String) (dflt : String) : String :=
  match o with
  | some s => if s == "" then dflt else s
  | none => dflt

/-- `_make_add_transaction.run` (`app/tools/financial_tools.py`): category
and kind inference when category is absent, silent date parsing, then
`store.add_transaction` with `abs(amount)`. -/
def addToolRun (st : Ledger) (user_id : String) (thread_id : Option String)
    (amount : Rat) (type : String) (category : Option String)
    (description : Option String) (date_str : Option String)
    (today : PyDate) : ToolReply × Ledger :=
  let step1 : Option String × String :=
    if !(truthy category) && truthy description then
      let ck := inferCategory (description.getD "")
      (some ck.1, if type == "" then ck.2 else type)
    else if !(truthy category) then (some "Outros", type)
    else (category, type)
  let transaction_date : Option PyDate :=
    if truthy date_str then parseDateStr (date_str.getD "") else none
  let r := addTransaction st user_id |amount| step1.2 (orElseStr step1.1 "Outros")
    description transaction_date thread_id today
  (ToolReply.added r.1, r.2)

/-- `_make_update_transaction.run`: silent date parsing, collection of the
provided fields (with `abs` applied to the amount), empty-update
shortcut, then `store.update_transaction`. -/
def updateToolRun (st : Ledger) (user_id : String) (tid : Nat)
    (amount : Option Rat) (type : Option String) (category : Option String)
    (description : Option String) (date_str : Option String) :
    ToolReply × Ledger :=
  let transaction_date : Option PyDate :=
    if truthy date_str then parseDateStr (date_str.getD "") else none
  let f := UpdateFields.mk (amount.map (fun a => |a|)) type category
    description transaction_date
  if amount.isNone && type.isNone && category.isNone && description.isNone
      && transaction_date.isNone then
    (ToolReply.noChanges, st)
  else
    let r := updateTransaction st user_id tid f
    (if r.1 then ToolReply.updated tid else ToolReply.notFound tid, r.2)

/-- `_make_clear_user_history.run`: anything other than the literal
confirmation `"SIM"` cancels before `clear_user_transactions` is reached. -/
def clearHistoryRun (st : Ledger) (user_id : String) (confirm : String) :
    ToolReply × Ledger :=
  if !(confirm == "SIM") then (ToolReply.cancelled, st)
  else
    let r := clearUserTransactions st user_id
    (ToolReply.cleared r.1, r.2)

/-- The two kinds of exception a unit-of-work body can raise:
`SQLAlchemyError` (the spec's `StorageError`) or anything else. -/
inductive PyExc where
  | sqlAlchemyError
  | otherError
deriving DecidableEq

/-- Observable session actions of `get_session`. -/
inductive SessionEvent where
  | commit
  | rollback
  | close
deriving DecidableEq

/-- `PersistentSQLiteStore.get_session`: `yield` the session to the body;
commit when the body returns; on `SQLAlchemyError` roll back and re-raise;
close in the `finally` block on every path. A body raising any other
exception is neither caught nor rolled back. The outcome is paired with
the ordered list of session actions performed after the body ran. -/
def getSessionRun {α : Type} (body : Except PyExc α) :
    Except PyExc α × List SessionEvent :=
  match body with
  | Except.ok a => (Except.ok a, [SessionEvent.commit, SessionEvent.close])
  | Except.error PyExc.sqlAlchemyError =>
    (Except.error PyExc.sqlAlchemyError, [SessionEvent.rollback, SessionEvent.close])
  | Except.error PyExc.otherError =>
    (Except.error PyExc.otherError, [SessionEvent.close])

/-- `unicodedata.normalize("NFKD", ·).encode("ascii", "ignore")` restricted
to the Latin letters this repository's data uses: an accented Latin letter
decomposes to its base letter (the combining mark is dropped by the ASCII
encode), any other non-ASCII codepoint is dropped, ASCII is kept. -/
def foldChar (c : Char) : List Char :=
  if c.toNat < 128 then [c]
  else if c == 'á' || c == 'à' || c == 'â' || c == 'ã' || c == 'ä' then ['a']
  else if c == 'Á' || c == 'À' || c == 'Â' || c == 'Ã' || c == 'Ä' then ['A']
  else if c == 'é' || c == 'è' || c == 'ê' || c == 'ë' then ['e']
  else if c == 'É' || c == 'È' || c == 'Ê' || c == 'Ë' then ['E']
  else if c == 'í' || c == 'ì' || c == 'î' || c == 'ï' then ['i']
  else if c == 'Í' || c == 'Ì' || c == 'Î' || c == 'Ï' then ['I']
  else if c == 'ó' || c == 'ò' || c == 'ô' || c == 'õ' || c == 'ö' then ['o']
  else if c == 'Ó' || c == 'Ò' || c == 'Ô' || c == 'Õ' || c == 'Ö' then ['O']
  else if c == 'ú' || c == 'ù' || c == 'û' || c == 'ü' then ['u']
  else if c == 'Ú' || c == 'Ù' || c == 'Û' || c == 'Ü' then ['U']
  else if c == 'ç' then ['c']
  else if c == 'Ç' then ['C']
  else if c == 'ñ' then ['n']
  else if c == 'Ñ' then ['N']
  else []

/-- Split a character list at whitespace (the fields of Python `.split()`,
before dropping the empties). -/
def splitOnWs : List Char → List (List Char)
  | [] => [[]]
  | c :: cs =>
    if c.isWhitespace then [] :: splitOnWs cs
    else
      match splitOnWs cs with
      | [] => [[c]]
      | w :: ws => (c :: w) :: ws

/-- `"-".join(words)`. -/
def joinHyphen : List (List Char) → List Char
  | [] => []
  | [w] => w
  | w :: ws => w ++ '-' :: joinHyphen ws

/-- `_slug` (`app/tools/memory.py`): strip diacritics, lower-case, join the
whitespace-separated tokens with hyphens (`.strip()` is subsumed by
`.split()` dropping empty tokens). -/
def slug (s : String) : String :=
  let folded := (s.toList.flatMap foldChar).map lowerChar
  let words := (splitOnWs folded).filter (fun w => !(w.isEmpty))
  String.mk (joinHyphen words)

/-- A preference value (`set_preference` accepts any JSON; the uses in this
repository are strings and numbers). -/
inductive PVal where
  | s (v : String)
  | n (v : Rat)
deriving DecidableEq

/-- The three document shapes this repository stores in the memory store:
the preference profile, a budget, and a merchant rule. -/
inductive MemVal where
  | profile (entries : List (String × PVal))
  | budget (category : String) (amount : Rat) (period : String)
      (currency : String) (updated_at : String)
  | rule (merchant : String) (category : String) (updated_at : String)
deriving DecidableEq

/-- One document of the namespaced memory store. -/
structure MemEntry where
  ns : List String
  key : String
  value : MemVal
deriving DecidableEq

/-- Modelled from the spec: the langgraph `BaseStore.get` used by the memory
tools is not part of the repository sources; per §4.4 it is a lookup by the
`(namespace, key)` primary key. -/
def memGet : List MemEntry → List String → String → Option MemVal
  | [], _, _ => none
  | e :: es, ns, k =>
    if e.ns == ns && e.key == k then some e.value else memGet es ns k

/-- Modelled from the spec: the langgraph `BaseStore.put` is not part of the
repository sources; per §4.4 it is an upsert — an existing `(namespace, key)`
document has its value replaced, otherwise a new document is inserted. -/
def memPut : List MemEntry → List String → String → MemVal → List MemEntry
  | [], ns, k, v => [MemEntry.mk ns k v]
  | e :: es, ns, k, v =>
    if e.ns == ns && e.key == k then MemEntry.mk ns k v :: es
    else e :: memPut es ns k v

/-- `config["configurable"]` of a LangChain `RunnableConfig`; `none` models
an absent `user_id` key. -/
structure Configurable where
  user_id : Option String
deriving DecidableEq

/-- A `RunnableConfig`; `none` at the outer level models an absent or empty
`configurable` entry. -/
structure RunnableConfig where
  configurable : Option Configurable
deriving DecidableEq

/-- `_get_user_id` (`app/tools/memory.py`), also inlined verbatim in
`get_preference`, `get_budget` and `get_category_rule`:
`(config or {}).get("configurable", {}).get("user_id", "user1")`. -/
def getUserIdCfg (config : Option RunnableConfig) : String :=
  match config with
  | none => "user1"
  | some c =>
    match c.configurable with
    | none => "user1"
    | some cc => cc.user_id.getD "user1"

/-- Replies of the memory tools, abstracting their Portuguese reply strings
by the branch that produced them. -/
inductive MemReply where
  | savedPref (key : String) (v : PVal)
  | noPrefs
  | prefNotFound (key : String)
  | prefValue (key : String) (v : PVal)
  | wholeProfile (entries : List (String × PVal))
  | budgetSaved (category : String) (amount : Rat) (currency : String)
      (period : String)
  | budgetDoc (v : MemVal)
  | noBudget (category : String) (period : String)
  | noBudgetList (period : String)
  | budgetList (vs : List MemVal)
  | ruleSaved (merchant : String) (category : String)
  | ruleDoc (v : MemVal)
  | noRule (merchant : String)
deriving DecidableEq

/-- Python dict upsert `profile[key] = value`: replaces in place, appends
new keys at the end (insertion order preserved). -/
def upsertAssoc : List (String × PVal) → String → PVal → List (String × PVal)
  | [], k, v => [(k, v)]
  | (k0, v0) :: es, k, v =>
    if k0 == k then (k, v) :: es else (k0, v0) :: upsertAssoc es k v

/-- Python `profile.get(key)`. -/
def lookupAssoc : List (String × PVal) → String → Option PVal
  | [], _ => none
  | (k0, v0) :: es, k => if k0 == k then some v0 else lookupAssoc es k

/-- `set_preference` (`app/tools/memory.py`): read-modify-write of the
single `"profile"` document in `(user_id, "prefs")`. A stored value of an
unexpected shape is treated as the empty profile (unreachable for states
produced by these tools). -/
def setPreference (mem : List MemEntry) (config : Option RunnableConfig)
    (key : String) (value : PVal) : MemReply × List MemEntry :=
  let uid := getUserIdCfg config
  let ns := [uid, "prefs"]
  let profile :=
    match memGet mem ns "profile" with
    | some (MemVal.profile es) => es
    | _ => []
  let profile2 := upsertAssoc profile key value
  (MemReply.savedPref key value, memPut mem ns "profile" (MemVal.profile profile2))

/-- `get_preference`: empty or absent profile reports nothing found;
otherwise one key or the whole profile. -/
def getPreference (mem : List MemEntry) (config : Option RunnableConfig)
    (key : Option String) : MemReply :=
  let uid := getUserIdCfg config
  match memGet mem [uid, "prefs"] "profile" with
  | some (MemVal.profile es) =>
    if es.isEmpty then MemReply.noPrefs
    else
      match key with
      | some k =>
        (match lookupAssoc es k with
          | some v => MemReply.prefValue k v
          | none => MemReply.prefNotFound k)
      | none => MemReply.wholeProfile es
  | _ => MemReply.noPrefs

/-- The `prefs.currency or "BRL"` default of `save_budget`. A non-string
stored currency falls back to `"BRL"` in this model (the source would
carry the raw value through; no claim exercises that corner). -/
def resolveCurrency (mem : List MemEntry) (uid : String) : String :=
  match memGet mem [uid, "prefs"] "profile" with
  | some (MemVal.profile es) =>
    (match lookupAssoc es "currency" with
      | some (PVal.s c) => if c == "" then "BRL" else c
      | _ => "BRL")
  | _ => "BRL"

/-- The currency actually written by `save_budget`: the explicit argument
when truthy, else the preference profile's currency, else `"BRL"`. -/
def saveBudgetCurrency (mem : List MemEntry) (uid : String)
    (currency : Option String) : String :=
  match currency with
  | some c => if c == "" then resolveCurrency mem uid else c
  | none => resolveCurrency mem uid

/-- `save_budget`: key `"{period}:{slug(category)}"` in
`(user_id, "budgets")`; the period defaults to the current month
(`todayPeriod`), the timestamp `now` models `_now_iso()`. -/
def saveBudget (mem : List MemEntry) (config : Option RunnableConfig)
    (category : String) (amount : Rat) (period : Option String)
    (currency : Option String) (now : String) (todayPeriod : String) :
    MemReply × List MemEntry :=
  let uid := getUserIdCfg config
  let period2 :=
    match period with
    | some p => if p == "" then todayPeriod else p
    | none => todayPeriod
  let currency2 := saveBudgetCurrency mem uid currency
  let key := period2 ++ ":" ++ slug category
  let v := MemVal.budget category amount period2 currency2 now
  (MemReply.budgetSaved category amount currency2 period2,
   memPut mem [uid, "budgets"] key v)

/-- Does the document carry a top-level `period` field equal to `period`?
(the `filter={"period": period}` of `get_budget`). -/
def budgetHasPeriod (v : MemVal) (period : String) : Bool :=
  match v with
  | MemVal.budget _ _ p _ _ => p == period
  | _ => false

/-- Modelled from the spec: the langgraph `BaseStore.search` is not part of
the repository sources; per §4.4 it filters the namespace's documents by
structural equality on the given top-level fields and caps the result at
`limit`. -/
def memSearchBudgets (mem : List MemEntry) (ns : List String)
    (period : String) (limit : Nat) : List MemVal :=
  (((mem.filter (fun e => e.ns == ns && budgetHasPeriod e.value period)).map
    (fun e => e.value)).take limit)

/-- `get_budget`: with a (truthy) category, direct lookup of
`"{period}:{slug(category)}"`; otherwise a filtered listing by period. -/
def getBudget (mem : List MemEntry) (config : Option RunnableConfig)
    (category : Option String) (period : Option String) (limit : Nat)
    (todayPeriod : String) : MemReply :=
  let uid := getUserIdCfg config
  let period2 :=
    match period with
    | some p => if p == "" then todayPeriod else p
    | none => todayPeriod
  let ns := [uid, "budgets"]
  if truthy category then
    let c := category.getD ""
    let key := period2 ++ ":" ++ slug c
    (match memGet mem ns key with
      | some v => MemReply.budgetDoc v
      | none => MemReply.noBudget c period2)
  else
    let rows := memSearchBudgets mem ns period2 limit
    if rows.isEmpty then MemReply.noBudgetList period2
    else MemReply.budgetList rows

/-- `teach_category_rule`: key `slug(merchant)` in `(user_id, "rules")`. -/
def teachCategoryRule (mem : List MemEntry) (config : Option RunnableConfig)
    (merchant : String) (category : String) (now : String) :
    MemReply × List MemEntry :=
  let uid := getUserIdCfg config
  (MemReply.ruleSaved merchant category,
   memPut mem [uid, "rules"] (slug merchant) (MemVal.rule merchant category now))

/-- `get_category_rule`: lookup of `slug(merchant)` in `(user_id, "rules")`. -/
def getCategoryRule (mem : List MemEntry) (config : Option RunnableConfig)
    (merchant : String) : MemReply :=
  let uid := getUserIdCfg config
  match memGet mem [uid, "rules"] (slug merchant) with
  | some v => MemReply.ruleDoc v
  | none => MemReply.noRule merchant

/-! Helper lemmas. -/

theorem sumAmounts_nil : sumAmounts [] = 0 := rfl

theorem countP_add_length_filter {α : Type} (p : α → Bool) (l : List α) :
    l.countP p + (l.filter (fun a => !(p a))).length = l.length := by
  induction l with
  | nil => rfl
  | cons a as ih =>
    by_cases h : p a = true
    · simp [List.countP_cons, List.filter_cons, h]
      omega
    · simp only [Bool.not_eq_true] at h
      simp [List.countP_cons, List.filter_cons, h]
      omega

theorem mem_deleteFirst {uid : String} {tid : Nat} {l : List Transaction}
    {t : Transaction} (h : t ∈ (deleteFirst uid tid l).2) : t ∈ l := by
  induction l with
  | nil => simp [deleteFirst] at h
  | cons t0 ts ih =>
    by_cases h0 : (t0.id == tid && t0.user_id == uid) = true
    · simp [deleteFirst, h0] at h
      exact List.mem_cons_of_mem t0 h
    · simp [deleteFirst, h0] at h
      rcases h with h | h
      · exact h ▸ List.mem_cons_self t0 ts
      · exact List.mem_cons_of_mem t0 (ih h)

theorem mem_updateFirst {uid : String} {tid : Nat} {f : UpdateFields}
    {l : List Transaction} {t : Transaction}
    (h : t ∈ (updateFirst uid tid f l).2) :
    t ∈ l ∨ ∃ t0, t0 ∈ l ∧ t = applyFields t0 f := by
  induction l with
  | nil => simp [updateFirst] at h
  | cons t0 ts ih =>
    by_cases h0 : (t0.id == tid && t0.user_id == uid) = true
    · simp [updateFirst, h0] at h
      rcases h with h | h
      · exact Or.inr ⟨t0, List.mem_cons_self t0 ts, h⟩
      · exact Or.inl (List.mem_cons_of_mem t0 h)
    · simp [updateFirst, h0] at h
      rcases h with h | h
      · exact Or.inl (h ▸ List.mem_cons_self t0 ts)
      · rcases ih h with h1 | ⟨t1, ht1, he⟩
        · exact Or.inl (List.mem_cons_of_mem t0 h1)
        · exact Or.inr ⟨t1, List.mem_cons_of_mem t0 ht1, he⟩

/-- Claim C1: for every user and every period, `get_balance` computes the
start-date cutoff per the documented mapping, sums income and expenses
independently over exactly the user's transactions with
`occurred_on >= start_date` (a transaction dated exactly `start_date` is
included), and returns `balance = income - expenses`, which may be
negative. -/
theorem getBalance_period_semantics (st : Ledger) (uid : String)
    (p : Period) (today : PyDate) :
    (getBalance st uid p today).start_date = startDate today p
    ∧ startDate today Period.today = today
    ∧ startDate today Period.week = today.subDays 7
    ∧ startDate today Period.month = PyDate.mk today.year today.month 1
    ∧ startDate today Period.year = PyDate.mk today.year 1 1
    ∧ startDate today Period.all = PyDate.mk 2000 1 1
    ∧ (getBalance st uid p today).income = sumAmounts (st.rows.filter
        (fun t => decide (t.user_id = uid ∧ t.type = "income"
          ∧ dateLe (startDate today p) t.date = true)))
    ∧ (getBalance st uid p today).expenses = sumAmounts (st.rows.filter
        (fun t => decide (t.user_id = uid ∧ t.type = "expense"
          ∧ dateLe (startDate today p) t.date = true)))
    ∧ (getBalance st uid p today).balance
        = (getBalance st uid p today).income - (getBalance st uid p today).expenses
    ∧ (∀ (a : Rat) (i n : Nat) (c : String) (d th : Option String),
        (getBalance (Ledger.mk [Transaction.mk i uid a "income" c d
            (startDate today p) th] n) uid p today).income = a)
    ∧ (getBalance (Ledger.mk [Transaction.mk 1 uid 5 "expense" "Outros" none
        today none] 2) uid Period.today today).balance < 0 := by
  refine ⟨rfl, rfl, rfl, rfl, rfl, rfl, rfl, rfl, rfl, ?_, ?_⟩
  · intro a i n c d th
    simp [getBalance, sumAmounts, dateLe_refl]
  · simp [getBalance, sumAmounts, dateLe_refl, startDate]

/-- Claim C2 counterexample: `update_transaction` overwrites `amount` with
the caller's value verbatim (no `abs`), so updating a stored transaction
with amount `-50` leaves a negative stored amount — the non-negativity
invariant is not preserved by every mutating operation. -/
theorem update_transaction_stores_negative_amount :
    (updateTransaction
      (addTransaction (Ledger.mk [] 1) "u1" 50 "expense" "Outros" none none
        none (PyDate.mk 2024 5 7)).2
      "u1" 1 (UpdateFields.mk (some (-50)) none none none none)).2.rows.all
      (fun t => decide (0 ≤ t.amount)) = false := by decide

theorem updateTransaction_nonneg {st : Ledger} {uid : String} {tid : Nat}
    {f : UpdateFields} (hinv : ∀ t ∈ st.rows, 0 ≤ t.amount)
    (hf : ∀ x ∈ f.amount, 0 ≤ x) :
    ∀ t ∈ (updateTransaction st uid tid f).2.rows, 0 ≤ t.amount := by
  intro t ht
  rcases mem_updateFirst ht with h | ⟨t0, ht0, he⟩
  · exact hinv t h
  · subst he
    cases hfa : f.amount with
    | none => simpa [applyFields, hfa] using hinv t0 ht0
    | some x =>
      have := hf x (by simp [hfa])
      simpa [applyFields, hfa] using this

/-- Claim C2 amended: the stored amount is a non-negative magnitude as
established by `add_transaction` (which stores `abs(amount)`) and preserved
by `delete_transaction`, `clear_user_transactions`, and the tool-level
update path (which applies `abs` before calling the store); the store-level
`update_transaction` itself overwrites `amount` with the caller's value, so
it preserves the invariant only when any supplied amount is non-negative. -/
theorem amount_invariant_amended (st : Ledger) (uid : String) (tid : Nat)
    (f : UpdateFields) (a : Rat) (ty cat : String) (d : Option String)
    (dt : Option PyDate) (th : Option String) (today : PyDate)
    (am2 : Option Rat) (ty2 cat2 desc2 ds2 : Option String)
    (hinv : ∀ t ∈ st.rows, 0 ≤ t.amount)
    (hf : ∀ x ∈ f.amount, 0 ≤ x) :
    (∀ t ∈ (addTransaction st uid a ty cat d dt th today).2.rows, 0 ≤ t.amount)
    ∧ (∀ t ∈ (deleteTransaction st uid tid).2.rows, 0 ≤ t.amount)
    ∧ (∀ t ∈ (clearUserTransactions st uid).2.rows, 0 ≤ t.amount)
    ∧ (∀ t ∈ (updateTransaction st uid tid f).2.rows, 0 ≤ t.amount)
    ∧ (∀ t ∈ (updateToolRun st uid tid am2 ty2 cat2 desc2 ds2).2.rows,
        0 ≤ t.amount) := by
  refine ⟨?_, ?_, ?_, updateTransaction_nonneg hinv hf, ?_⟩
  · intro t ht
    simp [addTransaction] at ht
    rcases ht with h | h
    · exact hinv t h
    · subst h
      exact abs_nonneg a
  · intro t ht
    exact hinv t (mem_deleteFirst ht)
  · intro t ht
    simp [clearUserTransactions] at ht
    exact hinv t ht.1
  · intro t ht
    simp only [updateToolRun] at ht
    split at ht <;> split at ht
    · exact hinv t ht
    · refine updateTransaction_nonneg hinv ?_ t ht
      intro x hx
      cases ham : am2 with
      | none => simp [ham] at hx
      | some y =>
        simp [ham] at hx
        subst hx
        exact abs_nonneg y
    · exact hinv t ht
    · refine updateTransaction_nonneg hinv ?_ t ht
      intro x hx
      cases ham : am2 with
      | none => simp [ham] at hx
      | some y =>
        simp [ham] at hx
        subst hx
        exact abs_nonneg y

/-- Witness for the amended C2 theorem at a concrete store. -/
theorem amount_invariant_amended_witness :
    (∀ t ∈ (Ledger.mk [Transaction.mk 1 "u1" 50 "expense" "Outros" none
        (PyDate.mk 2024 5 7) none] 2).rows, 0 ≤ t.amount)
    ∧ (∀ x ∈ (UpdateFields.mk (some 3) none none none none).amount, 0 ≤ x)
    ∧ ((∀ t ∈ (addTransaction (Ledger.mk [Transaction.mk 1 "u1" 50 "expense"
          "Outros" none (PyDate.mk 2024 5 7) none] 2) "u1" (-7) "expense"
          "Outros" none none none (PyDate.mk 2024 5 8)).2.rows, 0 ≤ t.amount)
      ∧ (∀ t ∈ (deleteTransaction (Ledger.mk [Transaction.mk 1 "u1" 50
          "expense" "Outros" none (PyDate.mk 2024 5 7) none] 2) "u1"
          1).2.rows, 0 ≤ t.amount)
      ∧ (∀ t ∈ (clearUserTransactions (Ledger.mk [Transaction.mk 1 "u1" 50
          "expense" "Outros" none (PyDate.mk 2024 5 7) none] 2)
          "u1").2.rows, 0 ≤ t.amount)
      ∧ (∀ t ∈ (updateTransaction (Ledger.mk [Transaction.mk 1 "u1" 50
          "expense" "Outros" none (PyDate.mk 2024 5 7) none] 2) "u1" 1
          (UpdateFields.mk (some 3) none none none none)).2.rows, 0 ≤ t.amount)
      ∧ (∀ t ∈ (updateToolRun (Ledger.mk [Transaction.mk 1 "u1" 50 "expense"
          "Outros" none (PyDate.mk 2024 5 7) none] 2) "u1" 1 (some (-9))
          none none none none).2.rows, 0 ≤ t.amount)) :=
  ⟨by decide, by decide,
   amount_invariant_amended (Ledger.mk [Transaction.mk 1 "u1" 50 "expense"
      "Outros" none (PyDate.mk 2024 5 7) none] 2) "u1" 1
     (UpdateFields.mk (some 3) none none none none) (-7) "expense" "Outros"
     none none none (PyDate.mk 2024 5 8) (some (-9)) none none none none
     (by decide) (by decide)⟩

theorem findKeyword_eq (dl : String) (l : List (String × String × String)) :
    findKeyword dl l = ((l.find? (fun e => containsSub dl e.1)).map
      (fun e => (e.2.1, e.2.2))) := by
  induction l with
  | nil => rfl
  | cons e es ih =>
    by_cases h : containsSub dl e.1 = true
    · simp [findKeyword, List.find?_cons, h]
    · simp only [Bool.not_eq_true] at h
      simp [findKeyword, List.find?_cons, h, ih]

/-- Claim C3 counterexample: `infer_category` returns the Portuguese labels
of the seeded keyword table, not the English glosses the claim names. -/
theorem inferCategory_labels_counterexample :
    inferCategory "Gastei 45 no almoço" ≠ ("Food", "expense")
    ∧ inferCategory "Recebi 5000 de salário" ≠ ("Salary", "income")
    ∧ inferCategory "" ≠ ("Other", "expense") := by decide

/-- Claim C3 amended: an empty description, or one in which no keyword of
the table occurs as a substring of the lower-cased description, yields the
default `("Outros", "expense")`; otherwise the first keyword of the table,
in stored insertion order, whose text occurs in the lower-cased description
wins. In particular the claim's examples return
`("Alimentação", "expense")`, `("Salário", "income")` and
`("Outros", "expense")`, and a description containing both `"uber"` and
`"mercado"` resolves by table order, not text order. -/
theorem inferCategory_first_match (d : String) :
    inferCategory d = ((CATEGORY_KEYWORDS.find?
        (fun e => containsSub (lowerStr d) e.1)).map
        (fun e => (e.2.1, e.2.2))).getD ("Outros", "expense")
    ∧ inferCategory "" = ("Outros", "expense")
    ∧ inferCategory "Gastei 45 no almoço" = ("Alimentação", "expense")
    ∧ inferCategory "Recebi 5000 de salário" = ("Salário", "income")
    ∧ inferCategory "uber mercado" = ("Alimentação", "expense")
    ∧ inferCategory "nenhuma palavra conhecida" = ("Outros", "expense") := by
  refine ⟨?_, by decide, by decide, by decide, by decide, by decide⟩
  by_cases hd : (d == "") = true
  · have : d = "" := by simpa using hd
    subst this
    decide
  · simp only [Bool.not_eq_true] at hd
    simp [inferCategory, hd, findKeyword_eq]
    cases CATEGORY_KEYWORDS.find? (fun e => containsSub (lowerStr d) e.1) with
    | none => rfl
    | some e => rfl

theorem deleteFirst_of_none {uid : String} {tid : Nat} {l : List Transaction}
    (h : l.any (fun t => t.id == tid && t.user_id == uid) = false) :
    deleteFirst uid tid l = (false, l) := by
  induction l with
  | nil => rfl
  | cons t ts ih =>
    simp only [List.any_cons, Bool.or_eq_false_iff] at h
    simp [deleteFirst, h.1, ih h.2]

theorem deleteFirst_of_any {uid : String} {tid : Nat} {l : List Transaction}
    (h : l.any (fun t => t.id == tid && t.user_id == uid) = true) :
    (deleteFirst uid tid l).1 = true := by
  induction l with
  | nil => simp at h
  | cons t ts ih =>
    by_cases h0 : (t.id == tid && t.user_id == uid) = true
    · simp [deleteFirst, h0]
    · simp only [Bool.not_eq_true] at h0
      simp only [List.any_cons, h0, Bool.false_or] at h
      simp [deleteFirst, h0, ih h]

theorem updateFirst_of_none {uid : String} {tid : Nat} {f : UpdateFields}
    {l : List Transaction}
    (h : l.any (fun t => t.id == tid && t.user_id == uid) = false) :
    updateFirst uid tid f l = (false, l) := by
  induction l with
  | nil => rfl
  | cons t ts ih =>
    simp only [List.any_cons, Bool.or_eq_false_iff] at h
    simp [updateFirst, h.1, ih h.2]

theorem updateFirst_of_any {uid : String} {tid : Nat} {f : UpdateFields}
    {l : List Transaction}
    (h : l.any (fun t => t.id == tid && t.user_id == uid) = true) :
    (updateFirst uid tid f l).1 = true := by
  induction l with
  | nil => simp at h
  | cons t ts ih =>
    by_cases h0 : (t.id == tid && t.user_id == uid) = true
    · simp [updateFirst, h0]
    · simp only [Bool.not_eq_true] at h0
      simp only [List.any_cons, h0, Bool.false_or] at h
      simp [updateFirst, h0, ih h]

/-- Claim C4: when no row matches the pair `(id, user_id)`,
`update_transaction` and `delete_transaction` return `false` (no exception:
both are total functions of the state) and leave the whole table exactly as
it was; when a matching row exists they return `true`. -/
theorem update_delete_not_found_semantics (st : Ledger) (uid : String)
    (tid : Nat) (f : UpdateFields) :
    if st.rows.any (fun t => t.id == tid && t.user_id == uid) = true then
      (deleteTransaction st uid tid).1 = true
      ∧ (updateTransaction st uid tid f).1 = true
    else
      deleteTransaction st uid tid = (false, st)
      ∧ updateTransaction st uid tid f = (false, st) := by
  by_cases h : st.rows.any (fun t => t.id == tid && t.user_id == uid) = true
  · simp only [h, if_true]
    exact ⟨deleteFirst_of_any h, updateFirst_of_any h⟩
  · simp only [h, if_false]
    simp only [Bool.not_eq_true] at h
    constructor
    · show (let r := deleteFirst uid tid st.rows; (r.1, Ledger.mk r.2 st.nextId))
        = (false, st)
      rw [deleteFirst_of_none h]
    · show (let r := updateFirst uid tid f st.rows; (r.1, Ledger.mk r.2 st.nextId))
        = (false, st)
      rw [updateFirst_of_none h]

/-- Claim C5: `clear_user_transactions(u)` removes exactly the rows owned by
`u` (none remain), leaves the rows of every other user untouched (the
sublist of rows not owned by `u` is preserved verbatim), returns the number
of rows removed (0 included, with no error possible), and row counts add
up. -/
theorem clear_user_transactions_exact (st : Ledger) (u : String) :
    (clearUserTransactions st u).2.rows.countP (fun t => t.user_id == u) = 0
    ∧ (clearUserTransactions st u).2.rows.filter (fun t => !(t.user_id == u))
        = st.rows.filter (fun t => !(t.user_id == u))
    ∧ (clearUserTransactions st u).1 = st.rows.countP (fun t => t.user_id == u)
    ∧ (clearUserTransactions st u).1 + (clearUserTransactions st u).2.rows.length
        = st.rows.length
    ∧ (clearUserTransactions st u).2.nextId = st.nextId := by
  refine ⟨?_, ?_, rfl, ?_, rfl⟩
  · rw [List.countP_eq_zero]
    intro t ht
    have := List.of_mem_filter ht
    simpa using this
  · show (st.rows.filter (fun t => !(t.user_id == u))).filter
        (fun t => !(t.user_id == u)) = st.rows.filter (fun t => !(t.user_id == u))
    rw [List.filter_filter]
    simp
  · exact countP_add_length_filter (fun t => t.user_id == u) st.rows

/-- Claim C6 counterexample: a unit-of-work body failing with an exception
that is not a `SQLAlchemyError` is re-raised by `get_session` without any
rollback — the `except SQLAlchemyError` clause does not catch it — so "any
error" is not rolled back as the claim states. -/
theorem get_session_no_rollback_on_other_error :
    (getSessionRun (Except.error PyExc.otherError : Except PyExc Nat)).2
      = [SessionEvent.close]
    ∧ ¬ SessionEvent.rollback ∈
      (getSessionRun (Except.error PyExc.otherError : Except PyExc Nat)).2 := by
  decide

/-- Claim C6 amended: `get_session` commits when the body completes without
error; when the body raises a `SQLAlchemyError` (the spec's `StorageError`)
it rolls back and re-raises that same storage error; any other error is
re-raised unchanged with no explicit rollback; and on every exit path the
session is closed. -/
theorem get_session_scope_semantics (α : Type) (a : α) :
    getSessionRun (Except.ok a)
      = (Except.ok a, [SessionEvent.commit, SessionEvent.close])
    ∧ getSessionRun (Except.error PyExc.sqlAlchemyError : Except PyExc α)
      = (Except.error PyExc.sqlAlchemyError,
         [SessionEvent.rollback, SessionEvent.close])
    ∧ getSessionRun (Except.error PyExc.otherError : Except PyExc α)
      = (Except.error PyExc.otherError, [SessionEvent.close])
    ∧ (∀ body : Except PyExc α, (getSessionRun body).1 = body)
    ∧ (∀ body : Except PyExc α,
        SessionEvent.close ∈ (getSessionRun body).2) := by
  refine ⟨rfl, rfl, rfl, ?_, ?_⟩
  · intro body
    cases body with
    | ok b => rfl
    | error e => cases e <;> rfl
  · intro body
    cases body with
    | ok b => simp [getSessionRun]
    | error e => cases e <;> simp [getSessionRun]

/-- Claim C7 counterexample: a date string that parses under neither
accepted format does not raise any `ValidationError` (no such class exists
anywhere in the sources): the add tool silently drops the date and records
a new transaction row at today's date. -/
theorem malformed_date_still_creates_row :
    parseDateStr "not-a-date" = none
    ∧ (addToolRun (Ledger.mk [] 1) "u1" none 45 "expense"
        (some "Alimentação") (some "almoço no centro") (some "not-a-date")
        (PyDate.mk 2024 5 7))
      = (ToolReply.added 1,
         Ledger.mk [Transaction.mk 1 "u1" 45 "expense" "Alimentação"
           (some "almoço no centro") (PyDate.mk 2024 5 7) none] 2) := by
  decide

/-- Claim C7 amended: a date string that parses under neither accepted
format is silently ignored — no error is raised and no unit of work is
skipped: `add_transaction` behaves exactly as if no date had been supplied
(a new row is still created, dated today) and `update_transaction` behaves
exactly as if no new date had been supplied (the other provided fields are
still applied). -/
theorem malformed_date_silently_ignored (st : Ledger) (uid : String)
    (th : Option String) (a : Rat) (ty : String) (cat desc : Option String)
    (ds : String) (today : PyDate) (tid : Nat) (am2 : Option Rat)
    (ty2 cat2 desc2 : Option String)
    (h : parseDateStr ds = none) :
    addToolRun st uid th a ty cat desc (some ds) today
      = addToolRun st uid th a ty cat desc none today
    ∧ (addToolRun st uid th a ty cat desc (some ds) today).2.rows.length
      = st.rows.length + 1
    ∧ (∀ t ∈ (addToolRun st uid th a ty cat desc (some ds) today).2.rows,
        t ∈ st.rows ∨ t.date = today)
    ∧ updateToolRun st uid tid am2 ty2 cat2 desc2 (some ds)
      = updateToolRun st uid tid am2 ty2 cat2 desc2 none := by
  have htd : (if truthy (some ds) then parseDateStr ((some ds).getD "")
      else none) = none := by
    by_cases hds : truthy (some ds) = true
    · simpa [hds] using h
    · simp only [Bool.not_eq_true] at hds
      simp [hds]
  refine ⟨?_, ?_, ?_, ?_⟩
  · simp only [addToolRun, htd]
    simp [truthy]
  · simp only [addToolRun, htd]
    simp [addTransaction]
  · intro t ht
    simp only [addToolRun, htd, addTransaction] at ht
    simp at ht
    rcases ht with ht | ht
    · exact Or.inl ht
    · subst ht
      simp
  · simp only [updateToolRun, htd]
    simp [truthy]

/-- Witness for the amended C7 theorem at the concrete malformed date
string `"not-a-date"`. -/
theorem malformed_date_silently_ignored_witness :
    parseDateStr "not-a-date" = none
    ∧ (addToolRun (Ledger.mk [] 1) "u1" none 45 "expense" none
          (some "mercado") (some "not-a-date") (PyDate.mk 2024 5 7)
        = addToolRun (Ledger.mk [] 1) "u1" none 45 "expense" none
          (some "mercado") none (PyDate.mk 2024 5 7)
      ∧ (addToolRun (Ledger.mk [] 1) "u1" none 45 "expense" none
          (some "mercado") (some "not-a-date") (PyDate.mk 2024 5 7)).2.rows.length
        = (Ledger.mk [] 1).rows.length + 1
      ∧ (∀ t ∈ (addToolRun (Ledger.mk [] 1) "u1" none 45 "expense" none
          (some "mercado") (some "not-a-date")
          (PyDate.mk 2024 5 7)).2.rows,
          t ∈ (Ledger.mk [] 1).rows ∨ t.date = PyDate.mk 2024 5 7)
      ∧ updateToolRun (Ledger.mk [] 1) "u1" 1 (some 9) none none none
          (some "not-a-date")
        = updateToolRun (Ledger.mk [] 1) "u1" 1 (some 9) none none none
          none) :=
  ⟨by decide,
   malformed_date_silently_ignored (Ledger.mk [] 1) "u1" none 45 "expense"
     none (some "mercado") "not-a-date" (PyDate.mk 2024 5 7) 1 (some 9)
     none none none (by decide)⟩

theorem memGet_memPut (s : List MemEntry) (ns : List String) (k : String)
    (v : MemVal) : memGet (memPut s ns k v) ns k = some v := by
  induction s with
  | nil => simp [memPut, memGet]
  | cons e es ih =>
    by_cases h : (e.ns == ns && e.key == k) = true
    · simp [memPut, h, memGet]
    · simp only [Bool.not_eq_true] at h
      simp [memPut, h, memGet, ih]

theorem lookupAssoc_upsert (es : List (String × PVal)) (k : String)
    (v : PVal) : lookupAssoc (upsertAssoc es k v) k = some v := by
  induction es with
  | nil => simp [upsertAssoc, lookupAssoc]
  | cons e es2 ih =>
    obtain ⟨k0, v0⟩ := e
    by_cases h : (k0 == k) = true
    · simp [upsertAssoc, h, lookupAssoc]
    · simp only [Bool.not_eq_true] at h
      simp [upsertAssoc, h, lookupAssoc, ih]

theorem upsertAssoc_isEmpty (es : List (String × PVal)) (k : String)
    (v : PVal) : (upsertAssoc es k v).isEmpty = false := by
  cases es with
  | nil => rfl
  | cons e es2 =>
    obtain ⟨k0, v0⟩ := e
    by_cases h : (k0 == k) = true
    · simp [upsertAssoc, h]
    · simp only [Bool.not_eq_true] at h
      simp [upsertAssoc, h]

/-- Claim C8: saving a budget for category `"Transport"`, amount 300,
period `"2024-05"` and then reading it back for the same user returns the
saved document, whose value carries `category = "Transport"`,
`amount = 300`, `period = "2024-05"`; both operations derive the same key
`"2024-05:transport"` (= `"<period>:<slug(category)>"`). -/
theorem save_get_budget_roundtrip (mem : List MemEntry)
    (cfg : Option RunnableConfig) (currency : Option String)
    (now todayP : String) (limit : Nat) :
    slug "Transport" = "transport"
    ∧ "2024-05" ++ ":" ++ slug "Transport" = "2024-05:transport"
    ∧ getBudget (saveBudget mem cfg "Transport" 300 (some "2024-05")
        currency now todayP).2 cfg (some "Transport") (some "2024-05")
        limit todayP
      = MemReply.budgetDoc (MemVal.budget "Transport" 300 "2024-05"
          (saveBudgetCurrency mem (getUserIdCfg cfg) currency) now) := by
  refine ⟨by decide, by decide, ?_⟩
  have h1 : (("2024-05" : String) == "") = false := by decide
  have h2 : truthy (some "Transport") = true := by decide
  simp only [saveBudget, getBudget, h1, h2, Bool.false_eq_true, if_false,
    if_true, Option.getD_some]
  rw [memGet_memPut]

/-- Claim C9: every memory tool resolves a configuration carrying no
`user_id` to the literal `"user1"` (the three shapes of such a
configuration are enumerated), so all six tools read and write under a
namespace whose first segment is `"user1"`, and two distinct callers that
both omit `user_id` observe and overwrite each other's preference, budget
and rule documents. -/
theorem default_user_shared_namespace (mem : List MemEntry) (k : String)
    (v : PVal) (amount : Rat) (cur : Option String) (now todayP : String)
    (merchant rcat : String) :
    getUserIdCfg none = "user1"
    ∧ getUserIdCfg (some (RunnableConfig.mk none)) = "user1"
    ∧ getUserIdCfg (some (RunnableConfig.mk (some (Configurable.mk none))))
      = "user1"
    ∧ (setPreference mem none k v).2
      = memPut mem ["user1", "prefs"] "profile" (MemVal.profile (upsertAssoc
          (match memGet mem ["user1", "prefs"] "profile" with
            | some (MemVal.profile es) => es
            | _ => []) k v))
    ∧ (teachCategoryRule mem none merchant rcat now).2
      = memPut mem ["user1", "rules"] (slug merchant)
          (MemVal.rule merchant rcat now)
    ∧ getPreference (setPreference mem none k v).2
        (some (RunnableConfig.mk none)) (some k)
      = MemReply.prefValue k v
    ∧ getBudget (saveBudget mem none "Lazer" amount (some "2024-06") cur
        now todayP).2 (some (RunnableConfig.mk none)) (some "Lazer")
        (some "2024-06") 20 todayP
      = MemReply.budgetDoc (MemVal.budget "Lazer" amount "2024-06"
          (saveBudgetCurrency mem "user1" cur) now)
    ∧ getCategoryRule (teachCategoryRule mem none merchant rcat now).2
        (some (RunnableConfig.mk none)) merchant
      = MemReply.ruleDoc (MemVal.rule merchant rcat now) := by
  refine ⟨rfl, rfl, rfl, rfl, rfl, ?_, ?_, ?_⟩
  · simp only [setPreference, getPreference, getUserIdCfg]
    rw [memGet_memPut]
    simp [upsertAssoc_isEmpty, lookupAssoc_upsert]
  · have h1 : (("2024-06" : String) == "") = false := by decide
    have h2 : truthy (some "Lazer") = true := by decide
    simp only [saveBudget, getBudget, getUserIdCfg, h1, h2,
      Bool.false_eq_true, if_false, if_true, Option.getD_some]
    rw [memGet_memPut]
  · simp only [teachCategoryRule, getCategoryRule, getUserIdCfg]
    rw [memGet_memPut]

/-- Claim C10: the clear-history tool with any confirmation other than the
literal `"SIM"` performs no deletion — the ledger state is returned
untouched and the reply is the cancellation branch — while `"SIM"` runs the
bulk deletion (`clear_user_transactions`) and reports the removed count. -/
theorem clear_history_requires_sim (st : Ledger) (uid confirm : String)
    (h : confirm ≠ "SIM") :
    clearHistoryRun st uid confirm = (ToolReply.cancelled, st)
    ∧ clearHistoryRun st uid "SIM"
      = (ToolReply.cleared (st.rows.countP (fun t => t.user_id == uid)),
         Ledger.mk (st.rows.filter (fun t => !(t.user_id == uid)))
           st.nextId) := by
  constructor
  · have hb : (confirm == "SIM") = false := by
      simpa using h
    simp [clearHistoryRun, hb]
  · simp [clearHistoryRun, clearUserTransactions]

/-- Witness for the C10 theorem at the concrete confirmation `"NAO"`. -/
theorem clear_history_requires_sim_witness :
    ("NAO" : String) ≠ "SIM"
    ∧ (clearHistoryRun (Ledger.mk [Transaction.mk 1 "u1" 45 "expense"
        "Outros" none (PyDate.mk 2024 5 7) none] 2) "u1" "NAO"
      = (ToolReply.cancelled,
         Ledger.mk [Transaction.mk 1 "u1" 45 "expense" "Outros" none
           (PyDate.mk 2024 5 7) none] 2)
    ∧ clearHistoryRun (Ledger.mk [Transaction.mk 1 "u1" 45 "expense"
        "Outros" none (PyDate.mk 2024 5 7) none] 2) "u1" "SIM"
      = (ToolReply.cleared ((Ledger.mk [Transaction.mk 1 "u1" 45 "expense"
          "Outros" none (PyDate.mk 2024 5 7) none] 2).rows.countP
            (fun t => t.user_id == "u1")),
         Ledger.mk ((Ledger.mk [Transaction.mk 1 "u1" 45 "expense" "Outros"
            none (PyDate.mk 2024 5 7) none] 2).rows.filter
              (fun t => !(t.user_id == "u1")))
           (Ledger.mk [Transaction.mk 1 "u1" 45 "expense" "Outros" none
             (PyDate.mk 2024 5 7) none] 2).nextId)) :=
  ⟨by decide,
   clear_history_requires_sim (Ledger.mk [Transaction.mk 1 "u1" 45 "expense"
      "Outros" none (PyDate.mk 2024 5 7) none] 2) "u1" "NAO" (by decide)⟩
